import Mathlib

/-!
Verification development for the webscope backend (src/backend/main.py).

The Python source is shallowly embedded here:

* Channels (aiortc RTCDataChannel handles) are opaque identifiers, modelled
  as natural numbers `Ch`.
* Python `set` objects (`channels`, `to_be_removed` in `channel_broadcast`)
  are modelled as duplicate-free lists with an idempotent `setAdd` insertion,
  matching `set.add`.
* The broadcast loop body of `send_frames` is the `cycleAdds`/`cycle`
  transition function on `RegState`; the per-channel `channel.send` outcome
  (success, or an `InvalidStateError` carrying the observed `readyState`)
  is supplied by an environment `env : Ch → SendOutcome`.
* `periodic_frames` advances the frame counter with `next_frame_n` every
  tick, starting from 0; `stepN`/`logAt` run the loop for a number of cycles
  and record, per cycle, the frame index, whether `gen_frame` was invoked,
  and the order of attempted/successful sends.
* `gen_frame`/`frame_from_arrays` are embedded over exact rationals; the
  transcendental waveform `np.sin(t * 2 * np.pi * freq)` and the IEEE-754
  8-byte serialization of one float are abstracted as parameters `wave` and
  `enc` (the structural claims about the payload do not depend on them).
* The signaling handler `offer` and the `on_shutdown` hook of
  `connection_handler` are embedded over an association list of
  session-id/peer-connection pairs; transport negotiation (`createAnswer`
  etc.) is abstracted as a parameter `answer`.
-/

namespace Webscope

/-- Opaque channel handles (`RTCDataChannel` objects). -/
abbrev Ch := Nat

/-! ### Frame counter (src: `frame_n_bytes`, `n_of_unique_frames`, `next_frame_n`) -/

def frame_n_bytes : Nat := 2

def n_of_unique_frames : Nat := (2 ^ 8) ^ frame_n_bytes

def next_frame_n (frame_n : Nat) : Nat := (frame_n + 1) % n_of_unique_frames

/-! ### Python `set` operations.

`setAdd` models `set.add`: inserting an element already present leaves the
set unchanged (idempotent). -/

def setAdd (l : List Ch) (c : Ch) : List Ch :=
  if c ∈ l then l else l ++ [c]

/-! ### Channel registry (src: `channel_broadcast`) -/

/-- One `channel.on(event)` registration made by `add_channel`; firing it
runs `to_be_removed.add(channel)` on its target channel. -/
structure Observer where
  event : String
  target : Ch
deriving DecidableEq

/-- The mutable state closed over by `channel_broadcast`: the live set
`channels`, the deferred-removal set `to_be_removed`, the installed
event observers, and how many times `gen_frame` has been called. -/
structure RegState where
  channels : List Ch
  to_be_removed : List Ch
  observers : List Observer
  genCount : Nat
deriving DecidableEq

/-- The two event names `add_channel` actually registers handlers for.
The source reads `@channel.on("closing")` and `@channel.on("closedkfjsdk")`
(the latter is the garbled event name; the decorated function is named
`closed`). -/
def addChannelEvents : List String := ["closing", "closedkfjsdk"]

/-- src `add_channel`: install the two observers, then `channels.add(channel)`. -/
def add_channel (s : RegState) (c : Ch) : RegState :=
  { s with
    observers := s.observers ++ addChannelEvents.map (fun e => { event := e, target := c }),
    channels := setAdd s.channels c }

/-- The transport layer fires event `e` on channel `c`: every observer
registered for that channel and event name runs `to_be_removed.add(channel)`
(idempotent, so one `setAdd` suffices when any observer matches). -/
def fire (s : RegState) (e : String) (c : Ch) : RegState :=
  if s.observers.any (fun o => o.event = e && o.target = c) then
    { s with to_be_removed := setAdd s.to_be_removed c }
  else s

/-- Outcome of one `channel.send(frame)` call: silent success, or an
`InvalidStateError` together with the `channel.readyState` observed in the
handler. -/
inductive SendOutcome
  | ok
  | invalid (readyState : String)
deriving DecidableEq

/-- Accumulator of the delivery `for` loop in `send_frames`: the fresh
`to_be_removed` set being built this cycle, the channels on which
`channel.send` was called (in call order), and those for which it succeeded. -/
structure DelivAcc where
  tbr : List Ch
  attempts : List Ch
  succeeded : List Ch
deriving DecidableEq

/-- One iteration of the delivery loop body:

    if channel in to_be_removed: continue
    try: channel.send(frame)
    except InvalidStateError:
        if channel.readyState != "open": to_be_removed.add(channel)
-/
def deliverStep (env : Ch → SendOutcome) (a : DelivAcc) (c : Ch) : DelivAcc :=
  if c ∈ a.tbr then a
  else
    match env c with
    | SendOutcome.ok =>
        { a with attempts := a.attempts ++ [c], succeeded := a.succeeded ++ [c] }
    | SendOutcome.invalid rs =>
        { a with attempts := a.attempts ++ [c],
                 tbr := if rs ≠ "open" then setAdd a.tbr c else a.tbr }

/-- The whole delivery loop over the cycle's live channels. -/
def deliverAll (env : Ch → SendOutcome) (L : List Ch) : DelivAcc :=
  L.foldl (deliverStep env) { tbr := [], attempts := [], succeeded := [] }

/-- The value of the `channels` variable at the point the delivery loop
reads it: `channels = channels - removing` (set difference against the
drained pending removals), followed by any `channels.add(c)` calls from
concurrently running `add_channel` invocations whose insertion lands after
that subtraction and before the loop (`mid`). -/
def chansAfter (mid : List Ch) (s : RegState) : List Ch :=
  mid.foldl setAdd (s.channels.filter (fun d => d ∉ s.to_be_removed))

/-- What one cycle did: the frame index it was ticked with, whether
`gen_frame` ran, and the send attempts/successes in order. -/
structure CycleLog where
  frameIdx : Nat
  generated : Bool
  attempts : List Ch
  succeeded : List Ch
deriving DecidableEq

/-- One cycle of `send_frames`, with `mid` the channels whose concurrent
`channels.add` lands inside the cycle (between the removal swap and the
delivery loop); `mid = []` is the purely cycle-boundary schedule.

    to_be_removed, removing = set(), to_be_removed
    channels = channels - removing
    if len(channels) <= 0: continue
    frame = gen_frame(frame_n)
    for channel in channels: ...
-/
def cycleAdds (env : Ch → SendOutcome) (frame_n : Nat) (mid : List Ch) (s : RegState) :
    RegState × CycleLog :=
  if (chansAfter mid s).length ≤ 0 then
    ({ s with channels := chansAfter mid s, to_be_removed := [] },
     { frameIdx := frame_n, generated := false, attempts := [], succeeded := [] })
  else
    ({ s with channels := chansAfter mid s,
              to_be_removed := (deliverAll env (chansAfter mid s)).tbr,
              genCount := s.genCount + 1 },
     { frameIdx := frame_n, generated := true,
       attempts := (deliverAll env (chansAfter mid s)).attempts,
       succeeded := (deliverAll env (chansAfter mid s)).succeeded })

/-- One cycle with no mid-cycle additions (all churn at the boundary). -/
def cycle (env : Ch → SendOutcome) (frame_n : Nat) (s : RegState) : RegState × CycleLog :=
  cycleAdds env frame_n [] s

/-- State after `n` cycles; cycle `n` is ticked with frame index
`n % n_of_unique_frames`, as produced by `periodic_frames` starting at 0. -/
def stepN (env : Nat → Ch → SendOutcome) (s : RegState) : Nat → RegState
  | 0 => s
  | n + 1 => (cycle (env n) (n % n_of_unique_frames) (stepN env s n)).1

/-- The log of cycle `n`. -/
def logAt (env : Nat → Ch → SendOutcome) (s : RegState) (n : Nat) : CycleLog :=
  (cycle (env n) (n % n_of_unique_frames) (stepN env s n)).2

/-- Environment in which every send succeeds. -/
def okEnv : Ch → SendOutcome := fun _ => SendOutcome.ok

/-- Per-cycle environment in which every send succeeds. -/
def okEnvN : Nat → Ch → SendOutcome := fun _ _ => SendOutcome.ok

/-- Registry holding the single live channel `1`. -/
def s1 : RegState := { channels := [1], to_be_removed := [], observers := [], genCount := 0 }

/-- Empty registry. -/
def s0 : RegState := { channels := [], to_be_removed := [], observers := [], genCount := 0 }

/-- C1. `add_channel 7` on the empty registry: the channel is inserted into
the active set immediately and two observers are installed, but their event
names are `"closing"` and `"closedkfjsdk"` — not `"closed"`. Consequently
firing the `"closing"` event queues the channel for removal (idempotently),
while firing the `"closed"` event is never observed and leaves the
pending-removal set empty, contradicting the claim that an observer is
installed for the `"closed"` event. -/
theorem c1_add_channel_closed_event_never_queues :
    7 ∈ (add_channel s0 7).channels ∧
    (add_channel s0 7).observers.map Observer.event = ["closing", "closedkfjsdk"] ∧
    "closed" ∉ (add_channel s0 7).observers.map Observer.event ∧
    (fire (add_channel s0 7) "closing" 7).to_be_removed = [7] ∧
    (fire (fire (add_channel s0 7) "closing" 7) "closing" 7).to_be_removed = [7] ∧
    (fire (add_channel s0 7) "closed" 7).to_be_removed = [] := by
  decide

/-- Helper: the wrap modulus `n_of_unique_frames` evaluates to 65536. -/
lemma next_frame_n_eq (i : Nat) : next_frame_n i = (i + 1) % 65536 := by
  unfold next_frame_n n_of_unique_frames frame_n_bytes
  norm_num

/-- Helper: iterating `next_frame_n` at least once lands on `(i + k) % 65536`. -/
lemma iterate_next_frame_n (k : Nat) : ∀ i : Nat, next_frame_n^[k + 1] i = (i + (k + 1)) % 65536 := by
  induction k with
  | zero =>
      intro i
      rw [show (0 + 1 : Nat) = 1 from rfl, Function.iterate_one]
      exact next_frame_n_eq i
  | succ k ih =>
      intro i
      rw [Function.iterate_succ_apply', ih, next_frame_n_eq]
      omega

/-- C7. The frame counter steps by `next(i) = (i + 1) % 65536`, and after
65536 ticks it returns to its starting value, so the index sequence repeats
with period 65536. -/
theorem c7_next_frame_n_mod_and_period (i : Nat) (h : i < 65536) :
    next_frame_n i = (i + 1) % 65536 ∧ next_frame_n^[65536] i = i := by
  constructor
  · exact next_frame_n_eq i
  · rw [show (65536 : Nat) = 65535 + 1 from by norm_num, iterate_next_frame_n 65535 i]
    omega

/-- Witness for C7 at `i = 3`. -/
theorem c7_next_frame_n_mod_and_period_witness :
    3 < 65536 ∧ (next_frame_n 3 = (3 + 1) % 65536 ∧ next_frame_n^[65536] 3 = 3) :=
  ⟨by norm_num, c7_next_frame_n_mod_and_period 3 (by norm_num)⟩

/-- C8. If the active set is empty after this cycle's drained removals are
subtracted, the cycle generates no frame (`gen_frame` call count unchanged)
and attempts no delivery. -/
theorem c8_empty_active_set_skips_generation (env : Ch → SendOutcome) (fn : Nat) (s : RegState)
    (h : s.channels.filter (fun d => d ∉ s.to_be_removed) = []) :
    (cycle env fn s).1.genCount = s.genCount ∧
    (cycle env fn s).2.generated = false ∧
    (cycle env fn s).2.attempts = [] := by
  have hch : chansAfter [] s = [] := by
    unfold chansAfter
    rw [List.foldl_nil]
    exact h
  simp [cycle, cycleAdds, hch]

/-- Witness for C8: channel 3 is live but pending removal, so the drained
active set is empty and the cycle is skipped. -/
theorem c8_empty_active_set_skips_generation_witness :
    (({ channels := [3], to_be_removed := [3], observers := [], genCount := 5 } :
        RegState).channels.filter
      (fun d => d ∉ ({ channels := [3], to_be_removed := [3], observers := [], genCount := 5 } :
        RegState).to_be_removed) = []) ∧
    ((cycle okEnv 0 { channels := [3], to_be_removed := [3], observers := [], genCount := 5 }).1.genCount =
        ({ channels := [3], to_be_removed := [3], observers := [], genCount := 5 } : RegState).genCount ∧
      (cycle okEnv 0 { channels := [3], to_be_removed := [3], observers := [], genCount := 5 }).2.generated = false ∧
      (cycle okEnv 0 { channels := [3], to_be_removed := [3], observers := [], genCount := 5 }).2.attempts = []) :=
  ⟨by decide,
   c8_empty_active_set_skips_generation okEnv 0
     { channels := [3], to_be_removed := [3], observers := [], genCount := 5 } (by decide)⟩

/-! ### Set and delivery-loop lemmas -/

lemma setAdd_mem {l : List Ch} {c d : Ch} : d ∈ setAdd l c ↔ d ∈ l ∨ d = c := by
  unfold setAdd
  split
  · rename_i h
    constructor
    · exact fun hd => Or.inl hd
    · rintro (hd | rfl)
      · exact hd
      · exact h
  · simp

lemma setAdd_nodup {l : List Ch} {c : Ch} (h : l.Nodup) : (setAdd l c).Nodup := by
  unfold setAdd
  split
  · exact h
  · rename_i hc
    refine List.Nodup.append h (List.nodup_singleton c) ?_
    intro a ha hmem
    rw [List.mem_singleton] at hmem
    subst hmem
    exact hc ha

lemma deliverStep_tbr_mono (env : Ch → SendOutcome) (a : DelivAcc) (c : Ch) :
    a.tbr ⊆ (deliverStep env a c).tbr := by
  intro d hd
  unfold deliverStep
  split
  · exact hd
  · split
    · exact hd
    · dsimp only
      split
      · exact setAdd_mem.mpr (Or.inl hd)
      · exact hd

lemma deliverStep_tbr_sub (env : Ch → SendOutcome) (a : DelivAcc) (c : Ch) :
    (deliverStep env a c).tbr ⊆ setAdd a.tbr c := by
  intro d hd
  unfold deliverStep at hd
  split at hd
  · exact setAdd_mem.mpr (Or.inl hd)
  · split at hd
    · exact setAdd_mem.mpr (Or.inl hd)
    · dsimp only at hd
      split at hd
      · exact hd
      · exact setAdd_mem.mpr (Or.inl hd)

lemma deliverStep_succ_mono (env : Ch → SendOutcome) (a : DelivAcc) (c : Ch) :
    a.succeeded ⊆ (deliverStep env a c).succeeded := by
  intro d hd
  unfold deliverStep
  split
  · exact hd
  · split
    · exact List.mem_append_left _ hd
    · exact hd

lemma deliverStep_attempts_of {a : DelivAcc} {c : Ch} (env : Ch → SendOutcome) (h : c ∉ a.tbr) :
    (deliverStep env a c).attempts = a.attempts ++ [c] := by
  unfold deliverStep
  rw [if_neg h]
  split <;> rfl

lemma deliverStep_attempts_sub (env : Ch → SendOutcome) (a : DelivAcc) (c : Ch) :
    ∀ d ∈ (deliverStep env a c).attempts, d ∈ a.attempts ∨ d = c := by
  intro d hd
  unfold deliverStep at hd
  split at hd
  · exact Or.inl hd
  · split at hd <;>
    · dsimp only at hd
      rcases List.mem_append.mp hd with h1 | h1
      · exact Or.inl h1
      · exact Or.inr (List.mem_singleton.mp h1)

lemma foldl_deliver_tbr_mono (env : Ch → SendOutcome) (L : List Ch) :
    ∀ a : DelivAcc, a.tbr ⊆ (L.foldl (deliverStep env) a).tbr := by
  induction L with
  | nil => intro a; simp
  | cons c t ih =>
      intro a
      rw [List.foldl_cons]
      exact (deliverStep_tbr_mono env a c).trans (ih _)

lemma foldl_deliver_succ_mono (env : Ch → SendOutcome) (L : List Ch) :
    ∀ a : DelivAcc, a.succeeded ⊆ (L.foldl (deliverStep env) a).succeeded := by
  induction L with
  | nil => intro a; simp
  | cons c t ih =>
      intro a
      rw [List.foldl_cons]
      exact (deliverStep_succ_mono env a c).trans (ih _)

lemma foldl_deliver_attempts_sub (env : Ch → SendOutcome) (L : List Ch) :
    ∀ a : DelivAcc, ∀ d ∈ (L.foldl (deliverStep env) a).attempts, d ∈ a.attempts ∨ d ∈ L := by
  induction L with
  | nil => intro a d hd; exact Or.inl hd
  | cons c t ih =>
      intro a d hd
      rw [List.foldl_cons] at hd
      rcases ih (deliverStep env a c) d hd with h1 | h1
      · rcases deliverStep_attempts_sub env a c d h1 with h2 | rfl
        · exact Or.inl h2
        · exact Or.inr (List.mem_cons_self _ _)
      · exact Or.inr (List.mem_cons_of_mem _ h1)

lemma fresh_after_step {env : Ch → SendOutcome} {a : DelivAcc} {c : Ch} {t : List Ch}
    (hnd : (c :: t).Nodup) (hfresh : ∀ d ∈ c :: t, d ∉ a.tbr) :
    ∀ d ∈ t, d ∉ (deliverStep env a c).tbr := by
  intro d hd hmem
  rcases setAdd_mem.mp (deliverStep_tbr_sub env a c hmem) with h1 | rfl
  · exact hfresh d (List.mem_cons_of_mem _ hd) h1
  · exact (List.nodup_cons.mp hnd).1 hd

lemma foldl_deliver_attempts (env : Ch → SendOutcome) (L : List Ch) :
    L.Nodup → ∀ a : DelivAcc, (∀ d ∈ L, d ∉ a.tbr) →
      (L.foldl (deliverStep env) a).attempts = a.attempts ++ L := by
  induction L with
  | nil => intro _ a _; simp
  | cons c t ih =>
      intro hnd a hfresh
      rw [List.foldl_cons]
      have hc : c ∉ a.tbr := hfresh c (List.mem_cons_self c t)
      rw [ih (List.nodup_cons.mp hnd).2 _ (fresh_after_step hnd hfresh),
        deliverStep_attempts_of env hc, List.append_assoc]
      rfl

lemma foldl_deliver_tbr_of_invalid (env : Ch → SendOutcome) {c : Ch} {rs : String}
    (henv : env c = SendOutcome.invalid rs) (hrs : rs ≠ "open") (L : List Ch) :
    L.Nodup → ∀ a : DelivAcc, (∀ d ∈ L, d ∉ a.tbr) → c ∈ L →
      c ∈ (L.foldl (deliverStep env) a).tbr := by
  induction L with
  | nil => intro _ _ _ hc; exact absurd hc (List.not_mem_nil c)
  | cons hd t ih =>
      intro hnd a hfresh hcL
      rw [List.foldl_cons]
      rcases List.mem_cons.mp hcL with rfl | hct
      · have hc : c ∉ a.tbr := hfresh c (List.mem_cons_self c t)
        have hstep : c ∈ (deliverStep env a c).tbr := by
          unfold deliverStep
          rw [if_neg hc, henv]
          dsimp only
          rw [if_pos hrs]
          exact setAdd_mem.mpr (Or.inr rfl)
        exact foldl_deliver_tbr_mono env t _ hstep
      · exact ih (List.nodup_cons.mp hnd).2 _ (fresh_after_step hnd hfresh) hct

lemma foldl_deliver_succ_of_ok (env : Ch → SendOutcome) {c : Ch}
    (henv : env c = SendOutcome.ok) (L : List Ch) :
    L.Nodup → ∀ a : DelivAcc, (∀ d ∈ L, d ∉ a.tbr) → c ∈ L →
      c ∈ (L.foldl (deliverStep env) a).succeeded := by
  induction L with
  | nil => intro _ _ _ hc; exact absurd hc (List.not_mem_nil c)
  | cons hd t ih =>
      intro hnd a hfresh hcL
      rw [List.foldl_cons]
      rcases List.mem_cons.mp hcL with rfl | hct
      · have hc : c ∉ a.tbr := hfresh c (List.mem_cons_self c t)
        have hstep : c ∈ (deliverStep env a c).succeeded := by
          unfold deliverStep
          rw [if_neg hc, henv]
          exact List.mem_append_right _ (List.mem_singleton_self c)
        exact foldl_deliver_succ_mono env t _ hstep
      · exact ih (List.nodup_cons.mp hnd).2 _ (fresh_after_step hnd hfresh) hct

/-! ### Cycle-level lemmas -/

lemma chansAfter_nil (s : RegState) :
    chansAfter [] s = s.channels.filter (fun d => d ∉ s.to_be_removed) := by
  unfold chansAfter
  rw [List.foldl_nil]

lemma mem_chansAfter_nil {s : RegState} {c : Ch} :
    c ∈ chansAfter [] s ↔ c ∈ s.channels ∧ c ∉ s.to_be_removed := by
  rw [chansAfter_nil]
  simp [List.mem_filter]

lemma cycleAdds_channels (env : Ch → SendOutcome) (fn : Nat) (mid : List Ch) (s : RegState) :
    (cycleAdds env fn mid s).1.channels = chansAfter mid s := by
  unfold cycleAdds
  split <;> rfl

lemma cycleAdds_frameIdx (env : Ch → SendOutcome) (fn : Nat) (mid : List Ch) (s : RegState) :
    (cycleAdds env fn mid s).2.frameIdx = fn := by
  unfold cycleAdds
  split <;> rfl

lemma cycleAdds_attempts (env : Ch → SendOutcome) (fn : Nat) (mid : List Ch) (s : RegState)
    (h : (chansAfter mid s).Nodup) :
    (cycleAdds env fn mid s).2.attempts = chansAfter mid s := by
  unfold cycleAdds
  split
  · rename_i hlen
    have hnil : chansAfter mid s = [] := List.eq_nil_of_length_eq_zero (Nat.le_zero.mp hlen)
    rw [hnil]
  · unfold deliverAll
    rw [foldl_deliver_attempts env _ h _ (fun d _ hd => absurd hd (List.not_mem_nil d))]
    rfl

lemma cycleAdds_attempts_sub (env : Ch → SendOutcome) (fn : Nat) (mid : List Ch) (s : RegState) :
    ∀ d ∈ (cycleAdds env fn mid s).2.attempts, d ∈ chansAfter mid s := by
  intro d hd
  unfold cycleAdds at hd
  split at hd
  · exact absurd hd (List.not_mem_nil d)
  · unfold deliverAll at hd
    rcases foldl_deliver_attempts_sub env _ _ d hd with h1 | h1
    · exact absurd h1 (List.not_mem_nil d)
    · exact h1

lemma cycleAdds_succ_of_ok (env : Ch → SendOutcome) (fn : Nat) (mid : List Ch) (s : RegState)
    {c : Ch} (hnd : (chansAfter mid s).Nodup) (hmem : c ∈ chansAfter mid s)
    (hok : env c = SendOutcome.ok) :
    c ∈ (cycleAdds env fn mid s).2.succeeded := by
  unfold cycleAdds
  split
  · rename_i hlen
    have hnil : chansAfter mid s = [] := List.eq_nil_of_length_eq_zero (Nat.le_zero.mp hlen)
    rw [hnil] at hmem
    exact absurd hmem (List.not_mem_nil c)
  · exact foldl_deliver_succ_of_ok env hok _ hnd _
      (fun d _ hd => absurd hd (List.not_mem_nil d)) hmem

lemma cycleAdds_tbr_of_invalid (env : Ch → SendOutcome) (fn : Nat) (mid : List Ch) (s : RegState)
    {c : Ch} {rs : String} (hnd : (chansAfter mid s).Nodup) (hmem : c ∈ chansAfter mid s)
    (henv : env c = SendOutcome.invalid rs) (hrs : rs ≠ "open") :
    c ∈ (cycleAdds env fn mid s).1.to_be_removed := by
  unfold cycleAdds
  split
  · rename_i hlen
    have hnil : chansAfter mid s = [] := List.eq_nil_of_length_eq_zero (Nat.le_zero.mp hlen)
    rw [hnil] at hmem
    exact absurd hmem (List.not_mem_nil c)
  · exact foldl_deliver_tbr_of_invalid env henv hrs _ hnd _
      (fun d _ hd => absurd hd (List.not_mem_nil d)) hmem

/-- A channel that is out of the live set, or queued for removal, is not
attempted in the coming cycle and is out of the live set after it. -/
lemma cycle_excludes (e : Ch → SendOutcome) (fn : Nat) (u : RegState) {c : Ch}
    (hu : c ∉ u.channels ∨ c ∈ u.to_be_removed) :
    c ∉ (cycle e fn u).2.attempts ∧ c ∉ (cycle e fn u).1.channels := by
  have hchans : c ∉ chansAfter [] u := by
    rw [mem_chansAfter_nil]
    rintro ⟨h1, h2⟩
    rcases hu with h | h
    · exact h h1
    · exact h2 h
  constructor
  · intro hc
    exact hchans (cycleAdds_attempts_sub e fn [] u c hc)
  · rw [cycle, cycleAdds_channels]
    exact hchans

/-- Once a channel is gone (or queued for removal), no later cycle ever
attempts a delivery to it, and it never reappears in the live set. -/
lemma never_attempted_again (env2 : Nat → Ch → SendOutcome) (t : RegState) {c : Ch}
    (h : c ∉ t.channels ∨ c ∈ t.to_be_removed) :
    ∀ n, c ∉ (logAt env2 t n).attempts ∧ c ∉ (stepN env2 t (n + 1)).channels := by
  intro n
  induction n with
  | zero => exact cycle_excludes (env2 0) (0 % n_of_unique_frames) t h
  | succ n ih =>
      exact cycle_excludes (env2 (n + 1)) ((n + 1) % n_of_unique_frames)
        (stepN env2 t (n + 1)) (Or.inl ih.2)

/-- C6. If `channel.send` raises `InvalidStateError` on channel `c` during a
cycle and `c.readyState` is observed not `"open"`, then: every channel that
survived this cycle's removals still gets its send attempted (the cycle is
not aborted), no channel is attempted twice within the cycle (no retry),
`c` is placed in the pending removals produced by this cycle, and — for any
later delivery outcomes — no later cycle ever attempts a delivery to `c`,
and `c` is out of the live set from the next cycle boundary on. -/
theorem c6_soft_error_isolation_and_pruning
    (env : Ch → SendOutcome) (fn : Nat) (s : RegState) (c : Ch) (rs : String)
    (hnd : s.channels.Nodup) (hc : c ∈ s.channels) (hcr : c ∉ s.to_be_removed)
    (he : env c = SendOutcome.invalid rs) (hrs : rs ≠ "open") :
    (∀ d ∈ s.channels, d ∉ s.to_be_removed → d ∈ (cycle env fn s).2.attempts) ∧
    (cycle env fn s).2.attempts.Nodup ∧
    c ∈ (cycle env fn s).1.to_be_removed ∧
    (∀ (env2 : Nat → Ch → SendOutcome) (n : Nat),
      c ∉ (logAt env2 (cycle env fn s).1 n).attempts ∧
      c ∉ (stepN env2 (cycle env fn s).1 (n + 1)).channels) := by
  have hndch : (chansAfter [] s).Nodup := by
    rw [chansAfter_nil]
    exact hnd.filter _
  have htbr : c ∈ (cycle env fn s).1.to_be_removed :=
    cycleAdds_tbr_of_invalid env fn [] s hndch (mem_chansAfter_nil.mpr ⟨hc, hcr⟩) he hrs
  refine ⟨?_, ?_, htbr, ?_⟩
  · intro d hd hdr
    rw [cycle, cycleAdds_attempts env fn [] s hndch]
    exact mem_chansAfter_nil.mpr ⟨hd, hdr⟩
  · rw [cycle, cycleAdds_attempts env fn [] s hndch]
    exact hndch
  · intro env2 n
    exact never_attempted_again env2 (cycle env fn s).1 (Or.inr htbr) n

/-- Two-channel registry for the C6 witness. -/
def sW : RegState := { channels := [1, 2], to_be_removed := [], observers := [], genCount := 0 }

/-- Delivery outcomes for the C6 witness: channel 2 raises
`InvalidStateError` with `readyState = "closing"`, everything else succeeds. -/
def envW : Ch → SendOutcome :=
  fun d => if d = 2 then SendOutcome.invalid "closing" else SendOutcome.ok

/-- Witness for C6: concrete two-channel registry in which channel 2 fails
with a non-open ready state while channel 1 is still delivered to; channel 2
is queued for removal and never attempted after this cycle. -/
theorem c6_soft_error_isolation_and_pruning_witness :
    (sW.channels.Nodup ∧ 2 ∈ sW.channels ∧ 2 ∉ sW.to_be_removed ∧
      envW 2 = SendOutcome.invalid "closing" ∧ "closing" ≠ "open") ∧
    1 ∈ (cycle envW 0 sW).2.attempts ∧
    2 ∈ (cycle envW 0 sW).1.to_be_removed ∧
    2 ∉ (logAt okEnvN (cycle envW 0 sW).1 0).attempts ∧
    2 ∉ (stepN okEnvN (cycle envW 0 sW).1 1).channels :=
  ⟨⟨by decide, by decide, by decide, by decide, by decide⟩,
   (c6_soft_error_isolation_and_pruning envW 0 sW 2 "closing"
      (by decide) (by decide) (by decide) (by decide) (by decide)).1 1 (by decide) (by decide),
   (c6_soft_error_isolation_and_pruning envW 0 sW 2 "closing"
      (by decide) (by decide) (by decide) (by decide) (by decide)).2.2.1,
   ((c6_soft_error_isolation_and_pruning envW 0 sW 2 "closing"
      (by decide) (by decide) (by decide) (by decide) (by decide)).2.2.2 okEnvN 0).1,
   ((c6_soft_error_isolation_and_pruning envW 0 sW 2 "closing"
      (by decide) (by decide) (by decide) (by decide) (by decide)).2.2.2 okEnvN 0).2⟩

/-- C2, counterexample. `send_frames` runs on its own thread while
`add_channel` runs on the server's event loop, and `add_channel` inserts
into the live `channels` set immediately. If the insertion lands inside a
cycle after `channels = channels - removing` (the `mid` argument of
`cycleAdds`), the delivery loop iterates over a set that already contains
the new channel: here channel 5, added mid-cycle, receives that same
cycle's delivery, contradicting the claim that a channel added while a
cycle is in progress receives no delivery during that cycle. -/
theorem c2_midcycle_add_delivered_same_cycle :
    5 ∈ (cycleAdds okEnv 0 [5] s1).2.succeeded ∧
    (cycleAdds okEnv 0 [5] s1).2.generated = true := by
  decide

/-- C2, amended. A channel whose `add_channel` completes while the loop is
between cycles is delivered to from the very next cycle on (provided it is
not pending removal and its sends succeed); a channel whose insertion lands
inside a running cycle after the removal swap joins the live set
immediately and already receives that same cycle's delivery. -/
theorem c2_amended_add_visibility
    (env : Ch → SendOutcome) (fn : Nat) (s : RegState) (c : Ch)
    (hnd : s.channels.Nodup) (hrem : c ∉ s.to_be_removed) (hok : env c = SendOutcome.ok) :
    c ∈ (cycle env fn (add_channel s c)).2.succeeded ∧
    c ∈ (cycleAdds env fn [c] s).2.succeeded := by
  constructor
  · have hnd1 : (chansAfter [] (add_channel s c)).Nodup := by
      rw [chansAfter_nil]
      exact (setAdd_nodup hnd).filter _
    have hmem : c ∈ chansAfter [] (add_channel s c) :=
      mem_chansAfter_nil.mpr ⟨setAdd_mem.mpr (Or.inr rfl), hrem⟩
    exact cycleAdds_succ_of_ok env fn [] (add_channel s c) hnd1 hmem hok
  · have hch : chansAfter [c] s = setAdd (s.channels.filter (fun d => d ∉ s.to_be_removed)) c := by
      unfold chansAfter
      rw [List.foldl_cons, List.foldl_nil]
    have hnd2 : (chansAfter [c] s).Nodup := by
      rw [hch]
      exact setAdd_nodup (hnd.filter _)
    have hmem : c ∈ chansAfter [c] s := by
      rw [hch]
      exact setAdd_mem.mpr (Or.inr rfl)
    exact cycleAdds_succ_of_ok env fn [c] s hnd2 hmem hok

/-- Witness for the amended C2 at channel 5 and the one-channel registry. -/
theorem c2_amended_add_visibility_witness :
    (s1.channels.Nodup ∧ 5 ∉ s1.to_be_removed ∧ okEnv 5 = SendOutcome.ok) ∧
    (5 ∈ (cycle okEnv 0 (add_channel s1 5)).2.succeeded ∧
      5 ∈ (cycleAdds okEnv 0 [5] s1).2.succeeded) :=
  ⟨⟨by decide, by decide, by decide⟩,
   c2_amended_add_visibility okEnv 0 s1 5 (by decide) (by decide) (by decide)⟩

/-- Helper: the frame index a cycle is ticked with is recorded unchanged. -/
lemma logAt_frameIdx (env : Nat → Ch → SendOutcome) (s : RegState) (n : Nat) :
    (logAt env s n).frameIdx = n % n_of_unique_frames :=
  cycleAdds_frameIdx _ _ [] _

/-- Helper: a cycle over the single always-succeeding channel 1 delivers to
it and leaves the registry unchanged except for the generation count. -/
lemma cycle_ok_single (m fn g : Nat) :
    cycle (okEnvN m) fn { channels := [1], to_be_removed := [], observers := [], genCount := g } =
      ({ channels := [1], to_be_removed := [], observers := [], genCount := g + 1 },
       { frameIdx := fn, generated := true, attempts := [1], succeeded := [1] }) := rfl

/-- Helper: under always-succeeding sends the one-channel registry is stable. -/
lemma stepN_ok_s1 : ∀ n, stepN okEnvN s1 n =
    { channels := [1], to_be_removed := [], observers := [], genCount := n } := by
  intro n
  induction n with
  | zero => rfl
  | succ n ih =>
      show (cycle (okEnvN n) (n % n_of_unique_frames) (stepN okEnvN s1 n)).1 = _
      rw [ih, cycle_ok_single]

/-- Helper: every cycle of the always-succeeding one-channel run delivers
frame `n % 65536` to channel 1. -/
lemma logAt_ok_s1 (n : Nat) : logAt okEnvN s1 n =
    { frameIdx := n % n_of_unique_frames, generated := true, attempts := [1], succeeded := [1] } := by
  show (cycle (okEnvN n) (n % n_of_unique_frames) (stepN okEnvN s1 n)).2 = _
  rw [stepN_ok_s1 n, cycle_ok_single]

/-- C4, counterexample. Channel 1 stays active forever and every delivery
succeeds, yet the frame indices it receives are not strictly increasing:
cycle 65535 delivers index 65535 and the very next cycle delivers index 0
(the counter wraps modulo 65536). -/
theorem c4_frame_index_wraps_not_increasing :
    1 ∈ (logAt okEnvN s1 65535).succeeded ∧
    1 ∈ (logAt okEnvN s1 65536).succeeded ∧
    (logAt okEnvN s1 65535).frameIdx = 65535 ∧
    (logAt okEnvN s1 65536).frameIdx = 0 ∧
    ¬ (logAt okEnvN s1 65535).frameIdx < (logAt okEnvN s1 65536).frameIdx := by
  refine ⟨?_, ?_, ?_, ?_, ?_⟩ <;>
    simp [logAt_ok_s1, n_of_unique_frames, frame_n_bytes]

/-- C4, amended. As long as a channel keeps receiving deliveries, the frame
indices it receives on consecutive cycles advance by `next_frame_n`: they
are strictly increasing below 65535 and wrap from 65535 back to 0, so the
delivered index sequence is consecutive modulo 65536 rather than strictly
increasing outright. -/
theorem c4_amended_frame_index_consecutive
    (env : Nat → Ch → SendOutcome) (s : RegState) (c : Ch) (m : Nat)
    (h1 : c ∈ (logAt env s m).succeeded) (h2 : c ∈ (logAt env s (m + 1)).succeeded) :
    (logAt env s (m + 1)).frameIdx = next_frame_n ((logAt env s m).frameIdx) ∧
    ((logAt env s m).frameIdx < 65535 →
      (logAt env s m).frameIdx < (logAt env s (m + 1)).frameIdx) := by
  have hN : n_of_unique_frames = 65536 := by norm_num [n_of_unique_frames, frame_n_bytes]
  rw [logAt_frameIdx, logAt_frameIdx, next_frame_n_eq, hN]
  constructor
  · omega
  · omega

/-- Witness for the amended C4 on the first two cycles of the one-channel run. -/
theorem c4_amended_frame_index_consecutive_witness :
    (1 ∈ (logAt okEnvN s1 0).succeeded ∧ 1 ∈ (logAt okEnvN s1 (0 + 1)).succeeded) ∧
    ((logAt okEnvN s1 (0 + 1)).frameIdx = next_frame_n ((logAt okEnvN s1 0).frameIdx) ∧
      ((logAt okEnvN s1 0).frameIdx < 65535 →
        (logAt okEnvN s1 0).frameIdx < (logAt okEnvN s1 (0 + 1)).frameIdx)) :=
  ⟨⟨by decide, by decide⟩,
   c4_amended_frame_index_consecutive okEnvN s1 1 0 (by decide) (by decide)⟩

/-! ### Connection manager (src: `connection_handler`)

Session ids (uuid4 values) and peer-connection handles are opaque, modelled
as naturals; the `connections` dict is an association list. The transport
negotiation (`setRemoteDescription` / `createAnswer` / `setLocalDescription`)
only contributes the answer SDP string and is abstracted as `answer`. -/

/-- A parsed signaling request body, the `ConnectionInfo` dataclass:
`{sdp, type, optional id}`. A body that `dacite.from_dict` (or `uuid.UUID`)
rejects is represented upstream as `none`. -/
structure ConnInfo where
  sdp : String
  type : String
  id : Option Nat
deriving DecidableEq

inductive OfferErr
  | invalidPayload
  | unknownSession
  | serviceUnavailable
deriving DecidableEq

/-- The `connections: dict[uuid.UUID, RTCPeerConnection]` registry. -/
structure CMState where
  connections : List (Nat × Nat)
deriving DecidableEq

/-- src `offer`. `payload = none` models a body `dacite.from_dict` raises
on (the exception escapes before anything is touched). With an `id`
present, `connections[id]` either renegotiates the existing session
(registry untouched) or raises `KeyError` (`unknownSession`). With no `id`,
a fresh id and connection are allocated and registered. -/
def offer (answer : Nat → String → String) (s : CMState) (payload : Option ConnInfo)
    (freshId freshConn : Nat) : Except OfferErr (CMState × ConnInfo) :=
  match payload with
  | none => Except.error OfferErr.invalidPayload
  | some req =>
    match req.id with
    | some id =>
      match s.connections.lookup id with
      | none => Except.error OfferErr.unknownSession
      | some conn =>
          Except.ok (s, { sdp := answer conn req.sdp, type := "answer", id := some id })
    | none =>
        Except.ok ({ connections := (freshId, freshConn) :: s.connections },
          { sdp := answer freshConn req.sdp, type := "answer", id := some freshId })

/-- The registry as the caller observes it after a call to `offer`:
unchanged whenever the handler raised. -/
def offerState (answer : Nat → String → String) (s : CMState) (payload : Option ConnInfo)
    (freshId freshConn : Nat) : CMState :=
  match offer answer s payload freshId freshConn with
  | Except.ok (s2, _) => s2
  | Except.error _ => s

/-- src `on_shutdown`: `asyncio.gather(*(conn.close() for conn in
connections.values()))` then `connections.clear()`. The returned list is
the multiset of `close()` calls issued (the gather closes them
concurrently; the list records which handles get closed). -/
def on_shutdown (s : CMState) : CMState × List Nat :=
  ({ connections := [] }, s.connections.map Prod.snd)

/-- The application: the connection registry plus whether process shutdown
has started. -/
structure AppState where
  cm : CMState
  shuttingDown : Bool
deriving DecidableEq

/-- Process shutdown: run `on_shutdown` and stop serving. -/
def shutdownApp (a : AppState) : AppState × List Nat :=
  ({ cm := (on_shutdown a.cm).1, shuttingDown := true }, (on_shutdown a.cm).2)

/-- Modelled from the spec: the HTTP serving layer (aiohttp's graceful
shutdown, outside src/backend/main.py) stops dispatching signaling requests
to `offer` once process shutdown has started, and such requests are
rejected as service-unavailable; before shutdown it dispatches to `offer`
unchanged. -/
def dispatchOffer (answer : Nat → String → String) (a : AppState) (payload : Option ConnInfo)
    (freshId freshConn : Nat) : Except OfferErr (AppState × ConnInfo) :=
  if a.shuttingDown then Except.error OfferErr.serviceUnavailable
  else
    match offer answer a.cm payload freshId freshConn with
    | Except.error e => Except.error e
    | Except.ok (cm2, ans) => Except.ok ({ a with cm := cm2 }, ans)

/-- C3. On shutdown, every tracked session handle receives exactly one
`close()` call (and nothing else is closed), the registry is empty
afterwards, and every offer dispatched once shutdown has started is
rejected as service-unavailable. The no-duplicate hypothesis holds because
each registered id owns a freshly constructed peer connection. -/
theorem c3_shutdown_closes_all_and_rejects
    (answer : Nat → String → String) (a : AppState)
    (hnodup : (a.cm.connections.map Prod.snd).Nodup) :
    (∀ conn ∈ a.cm.connections.map Prod.snd, (shutdownApp a).2.count conn = 1) ∧
    (shutdownApp a).2 = a.cm.connections.map Prod.snd ∧
    (shutdownApp a).1.cm.connections = [] ∧
    (∀ (payload : Option ConnInfo) (freshId freshConn : Nat),
      dispatchOffer answer (shutdownApp a).1 payload freshId freshConn =
        Except.error OfferErr.serviceUnavailable) := by
  refine ⟨?_, rfl, rfl, ?_⟩
  · intro conn hconn
    exact List.count_eq_one_of_mem hnodup hconn
  · intro payload freshId freshConn
    rfl

/-- Witness for C3 on a registry of two sessions. -/
theorem c3_shutdown_closes_all_and_rejects_witness :
    ((({ cm := { connections := [(1, 10), (2, 20)] }, shuttingDown := false } :
        AppState).cm.connections.map Prod.snd).Nodup) ∧
    (shutdownApp { cm := { connections := [(1, 10), (2, 20)] }, shuttingDown := false }).2.count 10 = 1 ∧
    (shutdownApp { cm := { connections := [(1, 10), (2, 20)] }, shuttingDown := false }).1.cm.connections = [] ∧
    dispatchOffer (fun _ _ => "") (shutdownApp
        { cm := { connections := [(1, 10), (2, 20)] }, shuttingDown := false }).1 none 0 0 =
      Except.error OfferErr.serviceUnavailable :=
  ⟨by decide,
   (c3_shutdown_closes_all_and_rejects (fun _ _ => "")
      { cm := { connections := [(1, 10), (2, 20)] }, shuttingDown := false } (by decide)).1 10
      (by decide),
   (c3_shutdown_closes_all_and_rejects (fun _ _ => "")
      { cm := { connections := [(1, 10), (2, 20)] }, shuttingDown := false } (by decide)).2.2.1,
   (c3_shutdown_closes_all_and_rejects (fun _ _ => "")
      { cm := { connections := [(1, 10), (2, 20)] }, shuttingDown := false } (by decide)).2.2.2 none 0 0⟩

/-- C5. An unparsable signaling body fails with the invalid-payload error,
and a parsed body carrying a session id that matches no tracked session
fails with the unknown-session error; in both cases the session registry is
left exactly as it was — nothing added, removed, or modified. -/
theorem c5_offer_errors_leave_registry_unchanged
    (answer : Nat → String → String) (s : CMState) (req : ConnInfo) (id : Nat)
    (freshId freshConn : Nat)
    (hid : req.id = some id) (hunknown : s.connections.lookup id = none) :
    offer answer s none freshId freshConn = Except.error OfferErr.invalidPayload ∧
    offerState answer s none freshId freshConn = s ∧
    offer answer s (some req) freshId freshConn = Except.error OfferErr.unknownSession ∧
    offerState answer s (some req) freshId freshConn = s := by
  have herr : offer answer s (some req) freshId freshConn = Except.error OfferErr.unknownSession := by
    unfold offer
    dsimp only
    rw [hid]
    dsimp only
    rw [hunknown]
  refine ⟨rfl, rfl, herr, ?_⟩
  unfold offerState
  rw [herr]

/-- Witness for C5: a registry tracking session 1 only, probed with an
unparsable body and with the unknown session id 2. -/
theorem c5_offer_errors_leave_registry_unchanged_witness :
    ((({ sdp := "v=0", type := "offer", id := some 2 } : ConnInfo).id = some 2) ∧
      (({ connections := [(1, 10)] } : CMState).connections.lookup 2 = none)) ∧
    (offer (fun _ _ => "") { connections := [(1, 10)] } none 9 90 =
        Except.error OfferErr.invalidPayload ∧
      offerState (fun _ _ => "") { connections := [(1, 10)] } none 9 90 =
        { connections := [(1, 10)] } ∧
      offer (fun _ _ => "") { connections := [(1, 10)] }
          (some { sdp := "v=0", type := "offer", id := some 2 }) 9 90 =
        Except.error OfferErr.unknownSession ∧
      offerState (fun _ _ => "") { connections := [(1, 10)] }
          (some { sdp := "v=0", type := "offer", id := some 2 }) 9 90 =
        { connections := [(1, 10)] }) :=
  ⟨⟨by decide, by decide⟩,
   c5_offer_errors_leave_registry_unchanged (fun _ _ => "") { connections := [(1, 10)] }
     { sdp := "v=0", type := "offer", id := some 2 } 2 9 90 (by decide) (by decide)⟩

/-! ### Frame generator (src: `gen_frame`, `frame_from_arrays`)

Embedded over exact rationals. The only float computations the structural
claims rest on are exact also in IEEE-754 binary64: the amplitude values
`(frame_n / 64) % 1 + 0.5` are dyadic rationals with denominator 64, and
Python's `x % 1` on a nonnegative float is `x - floor(x)`, i.e. `Int.fract`.
The transcendental per-sample factor `np.sin(t * 2 * np.pi * freq)` is
abstracted as `wave t`, and the 8-byte serialization of one `float64` as
`enc`; the claims hold for every choice of both. -/

/-- `np.linspace a b n`: `n` evenly spaced points from `a` to `b`. -/
def linspaceQ (a b : ℚ) (n : Nat) : List ℚ :=
  (List.range n).map (fun (j : Nat) => a + (b - a) * (j : ℚ) / ((n : ℚ) - 1))

/-- src `t = np.linspace(-1, 1, 1000)`. -/
def tSamples : List ℚ := linspaceQ (-1) 1 1000

/-- `np.diff`: successive differences. -/
def diffQ : List ℚ → List ℚ
  | a :: b :: rest => (b - a) :: diffQ (b :: rest)
  | _ => []

/-- src `dt = np.diff(t); dt = np.append(dt, [dt[-1]])`. -/
def dtSamples : List ℚ :=
  match (diffQ tSamples).getLast? with
  | some x => diffQ tSamples ++ [x]
  | none => diffQ tSamples

/-- src `amplitude = (frame_n / 64) % 1 + 0.5` (float true division;
`% 1` of a nonnegative float is its fractional part). -/
def amplitude (frame_n : Nat) : ℚ := Int.fract ((frame_n : ℚ) / 64) + 1 / 2

/-- src `y = amplitude * np.sin(t * 2 * np.pi * freq)`, with the sine
factor abstracted as `wave`. -/
def ySamples (wave : ℚ → ℚ) (frame_n : Nat) : List ℚ :=
  tSamples.map (fun t => amplitude frame_n * wave t)

/-- src `np.array(frame_n).astype("H").tobytes()`: the frame index cast to
uint16 (wrapping) and serialized as two little-endian bytes. -/
def u16le (n : Nat) : List Nat := [n % 65536 % 256, n % 65536 / 256]

/-- src `np.transpose([dt, y]).astype("d").tobytes()`: row-major bytes of
the 1000×2 array of (delta, sample) pairs, 8 bytes per float. -/
def f64pairs (enc : ℚ → List Nat) (dt y : List ℚ) : List Nat :=
  ((dt.zip y).map (fun p => enc p.1 ++ enc p.2)).flatten

/-- src `frame_from_arrays`. -/
def frame_from_arrays (enc : ℚ → List Nat) (dt y : List ℚ) (frame_n : Nat) : List Nat :=
  u16le frame_n ++ f64pairs enc dt y

/-- src `gen_frame`. -/
def gen_frame (wave : ℚ → ℚ) (enc : ℚ → List Nat) (frame_n : Nat) : List Nat :=
  frame_from_arrays enc dtSamples (ySamples wave frame_n) frame_n

lemma diffQ_length : ∀ L : List ℚ, (diffQ L).length = L.length - 1
  | [] => rfl
  | [_] => rfl
  | a :: b :: r => by
      have h := diffQ_length (b :: r)
      simp only [diffQ, List.length_cons] at h ⊢
      omega

lemma tSamples_length : tSamples.length = 1000 := by
  unfold tSamples linspaceQ
  rw [List.length_map, List.length_range]

lemma dtSamples_length : dtSamples.length = 1000 := by
  have h9 : (diffQ tSamples).length = 999 := by
    rw [diffQ_length, tSamples_length]
  unfold dtSamples
  split
  · simp [h9]
  · rename_i hnone
    rw [List.getLast?_eq_none_iff] at hnone
    rw [hnone] at h9
    simp at h9

lemma ySamples_length (wave : ℚ → ℚ) (i : Nat) : (ySamples wave i).length = 1000 := by
  unfold ySamples
  rw [List.length_map, tSamples_length]

lemma length_join_pairs (enc : ℚ → List Nat) (h : ∀ q, (enc q).length = 8) :
    ∀ ps : List (ℚ × ℚ), ((ps.map (fun p => enc p.1 ++ enc p.2)).flatten).length = 16 * ps.length := by
  intro ps
  induction ps with
  | nil => simp
  | cons p t ih =>
      simp only [List.map_cons, List.flatten_cons, List.length_append, List.length_cons, h, ih]
      ring

/-- C9. For frame indices below 65536, the generated payload is the 2-byte
little-endian unsigned encoding of the index (recoverable exactly),
followed by the concatenated 8-byte encodings of the 1000 (delta, sample)
pairs — delta first in each pair — for a total of 2 + 16·1000 bytes. -/
theorem c9_gen_frame_layout (wave : ℚ → ℚ) (enc : ℚ → List Nat) (i : Nat)
    (hi : i < 65536) (henc : ∀ q, (enc q).length = 8) :
    (gen_frame wave enc i).take 2 = [i % 256, i / 256] ∧
    i % 256 + 256 * (i / 256) = i ∧
    (gen_frame wave enc i).drop 2 =
      ((dtSamples.zip (ySamples wave i)).map (fun p => enc p.1 ++ enc p.2)).flatten ∧
    dtSamples.length = 1000 ∧
    (ySamples wave i).length = 1000 ∧
    (dtSamples.zip (ySamples wave i)).length = 1000 ∧
    (gen_frame wave enc i).length = 2 + 16 * 1000 := by
  have hu : u16le i = [i % 256, i / 256] := by
    unfold u16le
    rw [Nat.mod_eq_of_lt hi]
  have hzlen : (dtSamples.zip (ySamples wave i)).length = 1000 := by
    rw [List.length_zip, dtSamples_length, ySamples_length]
    omega
  refine ⟨?_, by omega, ?_, dtSamples_length, ySamples_length wave i, hzlen, ?_⟩
  · unfold gen_frame frame_from_arrays
    rw [hu, show (2 : Nat) = [i % 256, i / 256].length from rfl, List.take_left]
  · unfold gen_frame frame_from_arrays f64pairs
    rw [hu, show (2 : Nat) = [i % 256, i / 256].length from rfl, List.drop_left]
  · unfold gen_frame frame_from_arrays f64pairs
    rw [List.length_append, hu, length_join_pairs enc henc, hzlen]
    rfl

/-- Witness for C9 at frame index 5, a zero waveform, and the constant
8-byte encoder. -/
theorem c9_gen_frame_layout_witness :
    (5 < 65536 ∧ ∀ q : ℚ, ((fun _ : ℚ => [0, 0, 0, 0, 0, 0, 0, 0]) q).length = 8) ∧
    ((gen_frame (fun _ => 0) (fun _ => [0, 0, 0, 0, 0, 0, 0, 0]) 5).take 2 = [5 % 256, 5 / 256] ∧
      5 % 256 + 256 * (5 / 256) = 5 ∧
      (gen_frame (fun _ => 0) (fun _ => [0, 0, 0, 0, 0, 0, 0, 0]) 5).drop 2 =
        ((dtSamples.zip (ySamples (fun _ => 0) 5)).map
          (fun p => (fun _ : ℚ => [0, 0, 0, 0, 0, 0, 0, 0]) p.1 ++
            (fun _ : ℚ => [0, 0, 0, 0, 0, 0, 0, 0]) p.2)).flatten ∧
      dtSamples.length = 1000 ∧
      (ySamples (fun _ => 0) 5).length = 1000 ∧
      (dtSamples.zip (ySamples (fun _ => 0) 5)).length = 1000 ∧
      (gen_frame (fun _ => 0) (fun _ => [0, 0, 0, 0, 0, 0, 0, 0]) 5).length = 2 + 16 * 1000) :=
  ⟨⟨by norm_num, fun q => rfl⟩,
   c9_gen_frame_layout (fun _ => 0) (fun _ => [0, 0, 0, 0, 0, 0, 0, 0]) 5
     (by norm_num) (fun q => rfl)⟩

/-- C10. The amplitude envelope `(frame_n / 64) % 1 + 0.5` has period 64 in
the frame index (exactly, also in binary64 floats, since the values are
dyadic rationals), and nothing else in the payload body depends on the
index, so `gen_frame (i + 64)` and `gen_frame i` agree byte-for-byte from
offset 2 on — everything after the 2-byte frame-index header. -/
theorem c10_gen_frame_body_period_64 (wave : ℚ → ℚ) (enc : ℚ → List Nat) (i : Nat) :
    (gen_frame wave enc (i + 64)).drop 2 = (gen_frame wave enc i).drop 2 := by
  have hamp : amplitude (i + 64) = amplitude i := by
    unfold amplitude
    have hcast : ((i + 64 : Nat) : ℚ) / 64 = (i : ℚ) / 64 + 1 := by
      push_cast
      ring
    rw [hcast, Int.fract_add_one]
  unfold gen_frame frame_from_arrays f64pairs ySamples
  rw [hamp]
  rfl

end Webscope
